import Mathlib

/-!
Verification development for the XpressZone/deals catalog tool
(src/product_manager.py).  The Python source is shallowly embedded:
documents and field values are `List Char`, the JSON-LD block is a `Json`
inductive with an executable loads/dumps pair modelling Python's `json`
module (2-space indent), and the two regex-anchored patch operations are
modelled as the exact first-occurrence scans the `re` calls perform.
Machine-level caveats of the model are noted on each definition.
-/

set_option maxHeartbeats 1000000
set_option maxRecDepth 100000

/-- Whitespace class used both by Python's `str.strip`/`str.isspace` and by
the regex class `\s` on ASCII text: space, tab, newline, carriage return,
vertical tab, form feed. -/
def isPySpaceB (c : Char) : Bool :=
  c = ' ' || c = '\t' || c = '\n' || c = '\r' || c = '\x0b' || c = '\x0c'

/-- Whitespace accepted between JSON tokens by Python's `json.loads`
(strict JSON whitespace): space, tab, newline, carriage return. -/
def isJsonWsB (c : Char) : Bool :=
  c = ' ' || c = '\t' || c = '\n' || c = '\r'

/-- Concatenation of the images of a character-to-string map, used to state
facts about character-wise replacements. -/
def concatMap (f : Char → List Char) : List Char → List Char
  | [] => []
  | c :: t => f c ++ concatMap f t

/-- Python `value.replace(old, new)` restricted to a single-character `old`,
which is the only shape the source uses: every occurrence of the character
`a` is replaced by `r`. -/
def pyReplace1 (a : Char) (r : List Char) : List Char → List Char
  | [] => []
  | c :: t => (if c = a then r else [c]) ++ pyReplace1 a r t

/-- Python `s.strip()` on ASCII text: drop leading and trailing whitespace. -/
def pyStrip (l : List Char) : List Char :=
  ((l.dropWhile isPySpaceB).reverse.dropWhile isPySpaceB).reverse

/-- Python `pattern in s` for strings: does `pat` occur as a contiguous
substring of `s`? -/
def containsSeq {α : Type} [DecidableEq α] (s pat : List α) : Bool :=
  pat.isPrefixOf s ||
    match s with
    | [] => false
    | _ :: t => containsSeq t pat

/-- Python `s.replace(old, new, 1)`: replace the first (leftmost) occurrence
of `old` in `s` by `new`; if `old` does not occur, return `s` unchanged. -/
def pyReplaceFirst (s old new : List Char) : List Char :=
  match s with
  | [] => if old = [] then new else []
  | c :: t =>
    if old.isPrefixOf (c :: t) then new ++ (c :: t).drop old.length
    else c :: pyReplaceFirst t old new

/-- Regex `\s*` after a failed-or-not greedy run: skip the maximal leading
run of `\s` characters. -/
def skipReWs (l : List Char) : List Char := l.dropWhile isPySpaceB

/-- Marker comment anchoring the script-array insertion
(`// Add more products here over time`). -/
def markerL : List Char := "// Add more products here over time".data

/-- Four-space pad inserted between the product block and the re-inserted
marker by `update_products_js`. -/
def pad4 : List Char := "    ".data

/-- Product record: the five string fields of the flat product JSON object.
Missing keys read as the empty string (`product.get(key, "")`). -/
structure Product where
  title : List Char
  url : List Char
  image : List Char
  alt : List Char
  description : List Char
deriving DecidableEq

/-- Error taxonomy of the pipeline.  `markerNotFound` and `ldBlockNotFound`
are the two `ValueError`s of the patch operations; `malformedJson` is the
`json.JSONDecodeError`; `typeErr` models the `TypeError`/`AttributeError`
Python raises when `itemListElement` is present but not a list; the rest
model the image pipeline and filesystem failures. -/
inductive PmError where
  | markerNotFound
  | ldBlockNotFound
  | malformedJson
  | typeErr
  | fetchErr (status : Nat)
  | transportErr
  | decodeErr
  | ioErr
deriving DecidableEq

/-- Escape transform `esc` nested in `update_products_js`: double
backslashes, escape single quotes, collapse newlines to spaces, then trim
whitespace — in exactly that order. -/
def esc (v : List Char) : List Char :=
  pyStrip (pyReplace1 '\n' [' ']
    (pyReplace1 '\x27' ['\\', '\x27']
      (pyReplace1 '\\' ['\\', '\\'] v)))

/-- Script-literal object entry built by `update_products_js` (lines 50-58
of the source), with every field passed through `esc`. -/
def productBlock (p : Product) : List Char :=
  "    \x7b\n      title: \x27".data ++ esc p.title
    ++ "\x27,\n      url: \x27".data ++ esc p.url
    ++ "\x27,\n      image: \x27".data ++ esc p.image
    ++ "\x27,\n      alt: \x27".data ++ esc p.alt
    ++ "\x27,\n      description: \x27".data ++ esc p.description
    ++ "\x27\n    \x7d,\n".data

/-- First-match scan of `re.sub(r"}\s*(// Add more products here over time)",
"},\n    \\1", updated, count=1)`: find the leftmost closing brace that is
followed by optional whitespace and the marker, and rewrite that region to
a brace, comma, newline, four spaces and the marker.  If no position
matches, the text is returned unchanged. -/
def braceNormFirst : List Char → List Char
  | [] => []
  | c :: rest =>
    if c = '\x7d' ∧ markerL.isPrefixOf (skipReWs rest) then
      "\x7d,\n    ".data ++ markerL ++ (skipReWs rest).drop markerL.length
    else c :: braceNormFirst rest

/-- The `update_products_js` operation: require the marker, splice the
serialized entry plus a four-space pad before its first occurrence, then
apply the single brace normalization pass. -/
def updateProductsJs (content : List Char) (p : Product) :
    Except PmError (List Char) :=
  if containsSeq content markerL then
    .ok (braceNormFirst
      (pyReplaceFirst content markerL (productBlock p ++ pad4 ++ markerL)))
  else .error .markerNotFound

/-- JSON values as produced by `json.loads`.  Numbers are modelled as
integers: the structured-data documents this tool manipulates only carry
integer numerals (`position`, `numberOfItems`), and the model treats a
fractional or exponent numeral as a parse failure. -/
inductive Json where
  | null
  | bool (b : Bool)
  | num (i : Int)
  | str (s : List Char)
  | arr (xs : List Json)
  | obj (kvs : List (List Char × Json))

/-- Lookup in a Python dict modelled as an insertion-ordered association
list with distinct keys. -/
def dictLookup (kvs : List (List Char × Json)) (k : List Char) : Option Json :=
  match kvs with
  | [] => none
  | (k2, v) :: t => if k2 = k then some v else dictLookup t k

/-- Python dict assignment `d[k] = v`: update the value in place if the key
exists (keeping its position), otherwise append the pair at the end. -/
def dictSet (kvs : List (List Char × Json)) (k : List Char) (v : Json) :
    List (List Char × Json) :=
  match kvs with
  | [] => [(k, v)]
  | (k2, v2) :: t => if k2 = k then (k2, v) :: t else (k2, v2) :: dictSet t k v

/-- Hex digit for `\uXXXX` escapes, lowercase as CPython emits them. -/
def hexDig (n : Nat) : Char :=
  if n < 10 then Char.ofNat (48 + n) else Char.ofNat (87 + n)

/-- Four lowercase hex digits of a code unit below 0x10000. -/
def hex4 (n : Nat) : List Char :=
  [hexDig (n / 4096 % 16), hexDig (n / 256 % 16), hexDig (n / 16 % 16),
   hexDig (n % 16)]

/-- Escape of one character by `json.dumps` with the default
`ensure_ascii=True`: quote, backslash and the named control escapes come
out as two-character escapes, printable ASCII is kept, and everything else
becomes `\uXXXX` (a surrogate pair above 0xFFFF). -/
def jsonEscapeChar (c : Char) : List Char :=
  if c = '"' then ['\\', '"']
  else if c = '\\' then ['\\', '\\']
  else if c = '\n' then ['\\', 'n']
  else if c = '\t' then ['\\', 't']
  else if c = '\r' then ['\\', 'r']
  else if c = '\x08' then ['\\', 'b']
  else if c = '\x0c' then ['\\', 'f']
  else if 32 ≤ c.toNat ∧ c.toNat ≤ 126 then [c]
  else if c.toNat < 65536 then '\\' :: 'u' :: hex4 c.toNat
  else
    ('\\' :: 'u' :: hex4 (55296 + (c.toNat - 65536) / 1024)) ++
      ('\\' :: 'u' :: hex4 (56320 + (c.toNat - 65536) % 1024))

/-- Serialization of a JSON string literal, quotes included. -/
def dumpsStr (s : List Char) : List Char :=
  '"' :: (concatMap jsonEscapeChar s ++ ['"'])

/-- Decimal representation of an integer. -/
def intToDec (i : Int) : List Char :=
  if i < 0 then '-' :: Nat.toDigits 10 i.natAbs else Nat.toDigits 10 i.toNat

/-- Newline followed by `n` spaces, the line separator `json.dumps` uses at
indentation level `n`. -/
def nlInd (n : Nat) : List Char := '\n' :: List.replicate n ' '

/-- Comma-and-newline separated continuation items of an indented
`json.dumps` container. -/
def joinRest (ind : Nat) : List (List Char) → List Char
  | [] => []
  | q :: qs => ',' :: (nlInd ind ++ q) ++ joinRest ind qs

/-- All items of an indented `json.dumps` container, each on its own line. -/
def joinComma (ind : Nat) : List (List Char) → List Char
  | [] => []
  | p :: ps => nlInd ind ++ p ++ joinRest ind ps

mutual

/-- Core of `json.dumps(data, indent=2)` on one value; `ind` is the current
indentation level. -/
def dumpsJ (ind : Nat) : Json → List Char
  | .null => "null".data
  | .bool b => if b then "true".data else "false".data
  | .num i => intToDec i
  | .str s => dumpsStr s
  | .arr [] => "[]".data
  | .arr (x :: xs) =>
    '[' :: (joinComma (ind + 2) (dumpsJ (ind + 2) x :: dumpsA (ind + 2) xs)
      ++ nlInd ind ++ "]".data)
  | .obj [] => "\x7b\x7d".data
  | .obj (kv :: kvs) =>
    '\x7b' :: (joinComma (ind + 2)
        ((dumpsStr kv.1 ++ ": ".data ++ dumpsJ (ind + 2) kv.2) :: dumpsO (ind + 2) kvs)
      ++ nlInd ind ++ "\x7d".data)

/-- Serialized items of an array tail. -/
def dumpsA (ind : Nat) : List Json → List (List Char)
  | [] => []
  | x :: xs => dumpsJ ind x :: dumpsA ind xs

/-- Serialized members of an object tail. -/
def dumpsO (ind : Nat) : List (List Char × Json) → List (List Char)
  | [] => []
  | kv :: kvs => (dumpsStr kv.1 ++ ": ".data ++ dumpsJ ind kv.2) :: dumpsO ind kvs

end

/-- Python `json.dumps(data, indent=2)` at top level. -/
def pyDumps (j : Json) : List Char := dumpsJ 0 j

/-- Numeric value of one hex digit in a `\uXXXX` escape. -/
def hexVal (c : Char) : Option Nat :=
  if '0' ≤ c ∧ c ≤ '9' then some (c.toNat - 48)
  else if 'a' ≤ c ∧ c ≤ 'f' then some (c.toNat - 87)
  else if 'A' ≤ c ∧ c ≤ 'F' then some (c.toNat - 55)
  else none

/-- The named two-character escapes `json.loads` accepts inside strings. -/
def jsonUnescChar (e : Char) : Option Char :=
  if e = '"' then some '"'
  else if e = '\\' then some '\\'
  else if e = '/' then some '/'
  else if e = 'b' then some '\x08'
  else if e = 'f' then some '\x0c'
  else if e = 'n' then some '\n'
  else if e = 'r' then some '\r'
  else if e = 't' then some '\t'
  else none

/-- Body of a JSON string literal, consumed after the opening quote:
returns the decoded characters and the text after the closing quote.
Literal control characters are rejected as in strict-mode `json.loads`;
surrogate-pair recombination is not modelled. -/
def parseStrA : List Char → Option (List Char × List Char)
  | [] => none
  | '"' :: rest => some ([], rest)
  | '\\' :: 'u' :: a :: b :: c :: d :: rest =>
    match hexVal a, hexVal b, hexVal c, hexVal d with
    | some x, some y, some z, some w =>
      (parseStrA rest).map
        (fun p => (Char.ofNat (4096 * x + 256 * y + 16 * z + w) :: p.1, p.2))
    | _, _, _, _ => none
  | '\\' :: e :: rest =>
    match jsonUnescChar e with
    | some c => (parseStrA rest).map (fun p => (c :: p.1, p.2))
    | none => none
  | c :: rest =>
    if c.toNat < 32 then none
    else (parseStrA rest).map (fun p => (c :: p.1, p.2))

/-- Decimal digits to a natural number. -/
def digitsToNat (ds : List Char) : Nat :=
  ds.foldl (fun a c => a * 10 + (c.toNat - 48)) 0

/-- An unsigned JSON integer numeral: one or more digits with no spurious
leading zero, not followed by a fraction or exponent (the unsupported
float subset of the model). -/
def parseNatTok (s : List Char) : Option (Nat × List Char) :=
  let ds := s.takeWhile Char.isDigit
  let r := s.dropWhile Char.isDigit
  if ds = [] then none
  else if 1 < ds.length ∧ ds.headD '0' = '0' then none
  else
    match r with
    | '.' :: _ => none
    | 'e' :: _ => none
    | 'E' :: _ => none
    | _ => some (digitsToNat ds, r)

/-- A JSON integer numeral with optional leading minus sign. -/
def parseNumTok (s : List Char) : Option (Json × List Char) :=
  match s with
  | '-' :: rest => (parseNatTok rest).map (fun p => (.num (-(p.1 : Int)), p.2))
  | _ => (parseNatTok s).map (fun p => (.num (p.1 : Int), p.2))

/-- Recursion mode of the fuelled `json.loads` core: a single value, the
remaining elements of an array, or the remaining members of an object. -/
inductive PMode where
  | val
  | elems (acc : List Json)
  | members (acc : List (List Char × Json))

/-- Fuelled recursive-descent core of `json.loads`.  Duplicate object keys
follow CPython: the first occurrence fixes the position, the last fixes
the value (`dictSet`).  Fuel only bounds the recursion depth; any fuel
larger than twice the input length is sufficient. -/
def parseCore : Nat → PMode → List Char → Option (Json × List Char)
  | 0, _, _ => none
  | f + 1, .val, s =>
    match s.dropWhile isJsonWsB with
    | [] => none
    | c :: rest =>
      if c = 'n' then
        if "ull".data.isPrefixOf rest then some (.null, rest.drop 3) else none
      else if c = 't' then
        if "rue".data.isPrefixOf rest then some (.bool true, rest.drop 3) else none
      else if c = 'f' then
        if "alse".data.isPrefixOf rest then some (.bool false, rest.drop 4) else none
      else if c = '"' then
        (parseStrA rest).map (fun p => (.str p.1, p.2))
      else if c = '-' ∨ c.isDigit then parseNumTok (c :: rest)
      else if c = '[' then
        match rest.dropWhile isJsonWsB with
        | ']' :: r2 => some (.arr [], r2)
        | _ => parseCore f (.elems []) rest
      else if c = '\x7b' then
        match rest.dropWhile isJsonWsB with
        | '\x7d' :: r2 => some (.obj [], r2)
        | _ => parseCore f (.members []) rest
      else none
  | f + 1, .elems acc, s =>
    match parseCore f .val s with
    | none => none
    | some (v, r) =>
      match r.dropWhile isJsonWsB with
      | ',' :: r2 => parseCore f (.elems (acc ++ [v])) r2
      | ']' :: r2 => some (.arr (acc ++ [v]), r2)
      | _ => none
  | f + 1, .members acc, s =>
    match s.dropWhile isJsonWsB with
    | '"' :: r =>
      match parseStrA r with
      | none => none
      | some (k, r2) =>
        match r2.dropWhile isJsonWsB with
        | ':' :: r3 =>
          match parseCore f .val r3 with
          | none => none
          | some (v, r4) =>
            match r4.dropWhile isJsonWsB with
            | ',' :: r5 => parseCore f (.members (dictSet acc k v)) r5
            | '\x7d' :: r5 => some (.obj (dictSet acc k v), r5)
            | _ => none
        | _ => none
    | _ => none

/-- Python `json.loads`: parse one value and require only whitespace after
it. -/
def pyLoads (s : List Char) : Option Json :=
  match parseCore (4 * s.length + 16) .val s with
  | some (v, rest) => if rest.dropWhile isJsonWsB = [] then some v else none
  | none => none

/-- Literal open tag of the structured-data block. -/
def openTagL : List Char := "<script type=\"application/ld+json\">".data

/-- Literal close tag of the structured-data block. -/
def closeTagL : List Char := "</script>".data

/-- Lazy body scan of the capture `(\{[\s\S]*?\})`: return the shortest
body ending at a closing brace that is followed by optional whitespace and
the close tag.  The scan is from the left, so the first qualifying brace
wins, exactly as the non-greedy regex behaves. -/
def captureBody : List Char → Option (List Char)
  | [] => none
  | c :: rest =>
    if c = '\x7d' ∧ closeTagL.isPrefixOf (skipReWs rest) then some [c]
    else
      match captureBody rest with
      | some g => some (c :: g)
      | none => none

/-- Attempt the regex tail after a matched open tag: skip whitespace,
require an opening brace, then capture lazily up to the close tag. -/
def attemptCapture (t : List Char) : Option (List Char) :=
  match skipReWs t with
  | '\x7b' :: body => (captureBody body).map (fun g => '\x7b' :: g)
  | _ => none

/-- The `re.search` for the JSON-LD block: scan left to right for an open
tag whose continuation matches, returning the captured JSON text of the
first successful position. -/
def findLd : List Char → Option (List Char)
  | [] => none
  | c :: rest =>
    if openTagL.isPrefixOf (c :: rest) then
      match attemptCapture ((c :: rest).drop openTagL.length) with
      | some g => some g
      | none => findLd rest
    else findLd rest

/-- Key of the structured-data item list. -/
def ileKey : List Char := "itemListElement".data

/-- Key of the structured-data item count. -/
def nItemsKey : List Char := "numberOfItems".data

/-- The ListItem object `update_json_ld` builds for a product at a given
1-based position, in the source's field order. -/
def mkListItem (p : Product) (pos : Int) : Json :=
  .obj [("@type".data, .str "ListItem".data),
        ("position".data, .num pos),
        ("url".data, .str p.url),
        ("name".data, .str p.title),
        ("image".data, .str p.image)]

/-- Dict-level effect of `update_json_ld` lines 77-85: read the current
`itemListElement` (defaulting to the empty list), append the new item with
position one past the current length, and set `numberOfItems` to the new
length.  A present but non-list `itemListElement` raises in Python
(`TypeError`/`AttributeError`), modelled as `typeErr`. -/
def jsonLdInsert (kvs : List (List Char × Json)) (p : Product) :
    Except PmError (List (List Char × Json)) :=
  match dictLookup kvs ileKey with
  | none =>
    .ok (dictSet (dictSet kvs ileKey (.arr [mkListItem p 1])) nItemsKey (.num 1))
  | some (.arr xs) =>
    .ok (dictSet (dictSet kvs ileKey
          (.arr (xs ++ [mkListItem p ((xs.length : Int) + 1)])))
        nItemsKey (.num ((xs.length : Int) + 1)))
  | some _ => .error .typeErr

/-- The `update_json_ld` operation: locate the block, parse the captured
JSON text, apply the dict-level insertion, re-serialize with 2-space
indent, and replace the first occurrence of the captured text in the whole
document with the new serialization. -/
def updateJsonLd (content : List Char) (p : Product) :
    Except PmError (List Char) :=
  match findLd content with
  | none => .error .ldBlockNotFound
  | some g =>
    match pyLoads g with
    | some (.obj kvs) =>
      match jsonLdInsert kvs p with
      | .ok kvs2 => .ok (pyReplaceFirst content g (pyDumps (.obj kvs2)))
      | .error e => .error e
    | _ => .error .malformedJson

/-- ASCII letters and digits, the characters `slugify` keeps. -/
def isAsciiAlnumB (c : Char) : Bool :=
  ('a' ≤ c && c ≤ 'z') || ('A' ≤ c && c ≤ 'Z') || ('0' ≤ c && c ≤ '9')

/-- Image of one character under `re.sub(r"[^a-zA-Z0-9]+", "-", ...)`
before run-compression: non-alphanumerics become a dash. -/
def dashify (l : List Char) : List Char :=
  l.map (fun c => if isAsciiAlnumB c then c else '-')

/-- Compress adjacent dashes to one, completing the `+`-run semantics of
the slug regex. -/
def squeezeDash : List Char → List Char
  | [] => []
  | [c] => [c]
  | a :: b :: t =>
    if a = '-' ∧ b = '-' then squeezeDash (b :: t)
    else a :: squeezeDash (b :: t)

/-- The `slugify` helper: lowercase, collapse every non-alphanumeric run to
a single dash, strip dashes at both ends, and fall back to `image` when
nothing remains. -/
def slugify (t : List Char) : List Char :=
  let s := squeezeDash (dashify (t.map Char.toLower))
  let s2 := ((s.dropWhile (fun c => c = '-')).reverse.dropWhile
    (fun c => c = '-')).reverse
  if s2 = [] then "image".data else s2

/-- Outcome of one HTTP fetch as the transport layer reports it: a body
with its `Content-Type` header (defaulting to the empty string), an HTTP
error status, or a transport-level failure. -/
inductive FetchOutcome where
  | success (body : List Nat) (contentType : List Char)
  | httpError (status : Nat)
  | transportFail
deriving DecidableEq

/-- External world of one `add_product` run: the HTTP responses in request
order, the Pillow decoder as an oracle from bytes to image dimensions, and
the result of reading `index.html`. -/
structure Env where
  responses : List FetchOutcome
  decode : List Nat → Option (Nat × Nat)
  indexContent : Except Unit (List Char)

/-- Observable side effects of the pipeline, in program order. -/
inductive Event where
  | mkdirImages
  | fetch (accept : List Char)
  | decodeAttempt
  | writeImage (path : List Char) (dims : Nat × Nat)
  | readIndex
  | writeDoc (path : List Char) (content : List Char)
deriving DecidableEq

/-- First `Accept` header (`accept_primary` in the source). -/
def acceptPrimary : List Char :=
  "image/webp,image/jpeg,image/png,image/*;q=0.8,*/*;q=0.5".data

/-- Stricter `Accept` header of the single AVIF retry. -/
def acceptRetry : List Char := "image/jpeg,image/png,*/*;q=0.5".data

/-- Bytes of the AVIF container magic marker `ftypavif`. -/
def ftypavifB : List Nat := [102, 116, 121, 112, 97, 118, 105, 102]

/-- The AVIF test of line 144: `"avif" in content_type.lower() or
b"ftypavif" in data[:32]`. -/
def avifDetect (body : List Nat) (contentType : List Char) : Bool :=
  containsSeq (contentType.map Char.toLower) "avif".data ||
    containsSeq (body.take 32) ftypavifB

/-- Width bound `MAX_WIDTH`. -/
def maxWidth : Nat := 350

/-- Resize decision of lines 151-153 under exact arithmetic: a width above
the bound becomes the bound with height `max(1, int((350 / w) * h))`;
`int()` truncates, which for non-negative values is the floor, here the
natural division.  The Python computation goes through binary floats,
which the claims' concrete instances evaluate exactly. -/
def resizeDims (w h : Nat) : Nat × Nat :=
  if maxWidth < w then (maxWidth, max 1 ((maxWidth * h) / w)) else (w, h)

/-- Map a fetch outcome to the result `fetch_image_bytes` surfaces: a
success returns the body and content type, both error classes re-raise. -/
def fetchResult : Option FetchOutcome → Except PmError (List Nat × List Char)
  | some (.success body ct) => .ok (body, ct)
  | some (.httpError s) => .error (.fetchErr s)
  | some .transportFail => .error .transportErr
  | none => .error .transportErr

/-- Decode, resize and save phase shared by the one- and two-fetch paths of
`cache_image_as_webp`: a decode failure is terminal, a success records the
image write at the resized dimensions and returns the destination path
with backslashes normalized to forward slashes. -/
def decodePhase (env : Env) (dest : List Char) (data : List Nat)
    (evs : List Event) : Except PmError (List Char) × List Event :=
  match env.decode data with
  | none => (.error .decodeErr, evs ++ [.decodeAttempt])
  | some (w, h) =>
    (.ok (pyReplace1 '\\' ['/'] dest),
     evs ++ [.decodeAttempt, .writeImage dest (resizeDims w h)])

/-- The `cache_image_as_webp` pipeline: make the images directory, fetch
with the primary `Accept` header, retry once with the stricter header when
the response looks like AVIF, then decode and save.  Pillow is assumed
installed (the `Image is None` guard is not modelled). -/
def cacheImageAsWebp (env : Env) (title : List Char) :
    Except PmError (List Char) × List Event :=
  let dest := "images/".data ++ slugify title ++ ".webp".data
  let ev1 : List Event := [.mkdirImages, .fetch acceptPrimary]
  match fetchResult (env.responses.get? 0) with
  | .error e => (.error e, ev1)
  | .ok (data, ct) =>
    if avifDetect data ct then
      match fetchResult (env.responses.get? 1) with
      | .error e => (.error e, ev1 ++ [.fetch acceptRetry])
      | .ok (d2, _) => decodePhase env dest d2 (ev1 ++ [.fetch acceptRetry])
    else decodePhase env dest data ev1

/-- The `add_product` orchestration: cache the image (rewriting the
product's image field to the local path), read the primary document, apply
both patch operations in memory, then write the identical final text to
`index.html` and `404.html`.  The first failure aborts the remaining
steps and propagates. -/
def addProduct (env : Env) (p : Product) :
    Except PmError (List Char) × List Event :=
  match cacheImageAsWebp env p.title with
  | (.error e, evs) => (.error e, evs)
  | (.ok path, evs) =>
    match env.indexContent with
    | .error _ => (.error .ioErr, evs ++ [.readIndex])
    | .ok content =>
      match updateProductsJs content { p with image := path } with
      | .error e => (.error e, evs ++ [.readIndex])
      | .ok c1 =>
        match updateJsonLd c1 { p with image := path } with
        | .error e => (.error e, evs ++ [.readIndex])
        | .ok c2 =>
          (.ok c2, evs ++ [.readIndex,
            .writeDoc "index.html".data c2, .writeDoc "404.html".data c2])

/-- Scheme test `re.match(r"^https?://", value, re.IGNORECASE)`: the value
starts with `http://` or `https://` up to ASCII case. -/
def startsHttp (v : List Char) : Bool :=
  "http://".data.isPrefixOf (v.map Char.toLower) ||
    "https://".data.isPrefixOf (v.map Char.toLower)

/-- The `ProductForm.validate` error list with the source's two loops over
their fixed key lists unrolled: a requirement error per empty-after-strip
field, then a scheme error for each of `url`, `image` that is non-empty
and fails the scheme test. -/
def validate (p : Product) : List (List Char) :=
  (if pyStrip p.title = [] then ["title is required.".data] else []) ++
  (if pyStrip p.url = [] then ["url is required.".data] else []) ++
  (if pyStrip p.image = [] then ["image is required.".data] else []) ++
  (if pyStrip p.alt = [] then ["alt is required.".data] else []) ++
  (if pyStrip p.description = [] then ["description is required.".data] else []) ++
  (if p.url ≠ [] ∧ ¬ startsHttp p.url then
    ["url must start with http:// or https://".data] else []) ++
  (if p.image ≠ [] ∧ ¬ startsHttp p.image then
    ["image must start with http:// or https://".data] else [])

/-- Both patch operations in the order `add_product` applies them. -/
def insertBoth (content : List Char) (p : Product) : Except PmError (List Char) :=
  match updateProductsJs content p with
  | .ok c1 => updateJsonLd c1 p
  | .error e => .error e

/-- Observed length of the structured-data item list of a document: extract
the block, parse it, and count `itemListElement` (absent counts as zero,
exactly as `data.get("itemListElement", [])` reads it); `none` when the
document has no parsing block or the field is not a list. -/
def docItemsLen (d : List Char) : Option Nat :=
  match findLd d with
  | none => none
  | some g =>
    match pyLoads g with
    | some (.obj kvs) =>
      match dictLookup kvs ileKey with
      | some (.arr xs) => some xs.length
      | none => some 0
      | some _ => none
    | _ => none

/-- Item count observed after running both patch operations; `none` when
either operation fails. -/
def insertBothItems (d : List Char) (p : Product) : Option Nat :=
  match insertBoth d p with
  | .ok r => docItemsLen r
  | .error _ => none

/-- The `position` field of a structured-data list item, when it is an
integer member of an object. -/
def itemPos : Json → Option Int
  | .obj kvs =>
    match dictLookup kvs "position".data with
    | some (.num i) => some i
    | _ => none
  | _ => none

/-- Position fields of `itemListElement`, in order. -/
def posList (kvs : List (List Char × Json)) : Option (List (Option Int)) :=
  match dictLookup kvs ileKey with
  | some (.arr xs) => some (xs.map itemPos)
  | _ => none

/-- N sequential dict-level insertions, aborting at the first failure. -/
def insertSeq (kvs : List (List Char × Json)) :
    List Product → Except PmError (List (List Char × Json))
  | [] => .ok kvs
  | p :: ps =>
    match jsonLdInsert kvs p with
    | .ok k2 => insertSeq k2 ps
    | .error e => .error e

/-- Items a run of sequential insertions appends when the list already has
`k` elements: one item per product, at positions `k+1`, `k+2`, and so on. -/
def seqItems : List Product → Nat → List Json
  | [], _ => []
  | p :: ps, k => mkListItem p ((k : Int) + 1) :: seqItems ps (k + 1)

/-- Recognizer of fetch events. -/
def isFetchEv : Event → Bool
  | .fetch _ => true
  | _ => false

/-- Recognizer of document-write events. -/
def isWriteDocEv : Event → Bool
  | .writeDoc _ _ => true
  | _ => false

/-- Everything of the product block before its closing `},` line break:
`productBlock p` is this followed by a brace, a comma and a newline. -/
def productBlockFront (p : Product) : List Char :=
  "    \x7b\n      title: \x27".data ++ esc p.title
    ++ "\x27,\n      url: \x27".data ++ esc p.url
    ++ "\x27,\n      image: \x27".data ++ esc p.image
    ++ "\x27,\n      alt: \x27".data ++ esc p.alt
    ++ "\x27,\n      description: \x27".data ++ esc p.description
    ++ "\x27\n    ".data

/-- Reversal of the serializer's escape transform as the spec describes it:
undo backslash doubling and single-quote escaping, scanning left to
right. -/
def unescScript : List Char → List Char
  | [] => []
  | ['\\'] => ['\\']
  | '\\' :: d :: t =>
    if d = '\\' then '\\' :: unescScript t
    else if d = '\x27' then '\x27' :: unescScript t
    else '\\' :: unescScript (d :: t)
  | c :: rest => c :: unescScript rest

/-- Character-wise form of the composed escape replacements (backslash
doubling, quote escaping, newline collapse), before the final trim. -/
def escChar (c : Char) : List Char :=
  if c = '\\' then ['\\', '\\']
  else if c = '\x27' then ['\\', '\x27']
  else if c = '\n' then [' ']
  else [c]

/-- Newline-to-space collapse applied alone. -/
def nlToSpace (v : List Char) : List Char :=
  v.map (fun c => if c = '\n' then ' ' else c)

/-- Height the claim predicts for a downscaled image: `round(350 * h / w)`
with a minimum of 1, under exact rational arithmetic (rounding half away
from zero; the disputed instance is not a half-tie, so Python's half-even
`round` agrees). -/
def claimRoundHeight (w h : Nat) : Nat :=
  max 1 ((2 * (maxWidth * h) + w) / (2 * w))

/-- Product of the spec's own worked scenario. -/
def pMug : Product :=
  { title := "Test Mug".data
    url := "https://example.com/p".data
    image := "https://example.com/i.jpg".data
    alt := "A mug".data
    description := "Nice mug".data }

/-- Document whose JSON-LD block text `\x7b\x7d` also occurs at the start of
the document, ahead of the block. -/
def docTwin : List Char :=
  "\x7b\x7d\n// Add more products here over time\n<script type=\"application/ld+json\">\x7b\x7d</script>".data

/-- Document with two marker occurrences, the second preceded by a closing
brace and whitespace. -/
def docTwoMarks : List Char :=
  markerL ++ " B \x7d ".data ++ markerL

/-- Environment whose fetch and decode succeed but whose `index.html` has
no marker comment. -/
def envNoMarker : Env :=
  { responses := [.success [1, 2, 3] "image/jpeg".data]
    decode := fun _ => some (100, 100)
    indexContent := .ok "hello no marker".data }

/-- Document text of the well-formed host ahead of its JSON-LD object. -/
def docGoodPre : List Char :=
  "<body>\n<script>\nconst PRODUCTS = [\n    // Add more products here over time\n];\n</script>\n<script type=\"application/ld+json\">".data

/-- The JSON-LD object text of the well-formed host document. -/
def gGood : List Char :=
  "\x7b\n  \"@type\": \"ItemList\",\n  \"itemListElement\": [],\n  \"numberOfItems\": 0\n\x7d".data

/-- Document text of the well-formed host after its JSON-LD object. -/
def docGoodPost : List Char := "</script>\n</body>".data

/-- Well-formed host document: one marker comment and one JSON-LD block
with an empty item list. -/
def docGood : List Char := docGoodPre ++ gGood ++ docGoodPost

/-- Parsed JSON-LD object of the well-formed host document. -/
def kvsGood : List (List Char × Json) :=
  [("@type".data, .str "ItemList".data), (ileKey, .arr []), (nItemsKey, .num 0)]

/-- The object after inserting the worked-scenario product, read back from
the model. -/
def kvs2Good : List (List Char × Json) :=
  match jsonLdInsert kvsGood pMug with
  | .ok k => k
  | .error _ => []

/-- Environment for a fully successful `add_product` run. -/
def envGood : Env :=
  { responses := [.success [9, 9, 9] "image/jpeg".data]
    decode := fun _ => some (700, 123)
    indexContent := .ok docGood }

/-- Final document text of the successful run, read back from the model. -/
def finalDocGood : List Char :=
  match (addProduct envGood pMug).1 with
  | .ok c => c
  | .error _ => []

/-- Environment whose first response is AVIF by both signals. -/
def envAvif : Env :=
  { responses := [.success ([1, 2] ++ ftypavifB) "image/avif".data,
      .success [3, 4] "image/jpeg".data]
    decode := fun _ => some (10, 10)
    indexContent := .ok [] }

/-- Structured-data document whose item list already violates the mirror
invariant: duplicate positions and a wrong `numberOfItems`, plus an extra
top-level key. -/
def docGaps : List Char :=
  "<p>x</p><script type=\"application/ld+json\">\x7b\"itemListElement\": [\x7b\"position\": 3\x7d, \x7b\"position\": 3\x7d], \"numberOfItems\": 99, \"keep\": \"me\"\x7d</script>".data

/-- The captured JSON text of `docGaps`. -/
def gGaps : List Char :=
  "\x7b\"itemListElement\": [\x7b\"position\": 3\x7d, \x7b\"position\": 3\x7d], \"numberOfItems\": 99, \"keep\": \"me\"\x7d".data

/-- The two invariant-violating items of `docGaps`. -/
def xsGaps : List Json :=
  [.obj [("position".data, .num 3)], .obj [("position".data, .num 3)]]

/-- Parsed structured-data object of `docGaps`. -/
def kvsGaps : List (List Char × Json) :=
  [(ileKey, .arr xsGaps), (nItemsKey, .num 99), ("keep".data, .str "me".data)]

example : slugify "Men\x27s Running Shoes!!".data = "men-s-running-shoes".data := by
  decide
example : slugify "   ".data = "image".data := by decide
example : resizeDims 700 123 = (350, 61) := by decide
example : esc "a\x27b".data = "a\\\x27b".data := by decide
example : pyReplaceFirst "xyxy".data "y".data "z".data = "xzxy".data := by decide
example : containsSeq "hello".data "ell".data = true := by decide
example : containsSeq "hello".data "elo".data = false := by decide

example :
    pyDumps (.obj [("a".data, .num 1),
      ("b".data, .arr [.obj [("x".data, .arr [])], .num 2]),
      ("c".data, .obj [])]) =
    "\x7b\n  \"a\": 1,\n  \"b\": [\n    \x7b\n      \"x\": []\n    \x7d,\n    2\n  ],\n  \"c\": \x7b\x7d\n\x7d".data := by
  decide

example :
    (pyLoads "\x7b\n  \"a\": 1,\n  \"b\": [\n    \x7b\n      \"x\": []\n    \x7d,\n    2\n  ],\n  \"c\": \x7b\x7d\n\x7d".data).map pyDumps =
    some "\x7b\n  \"a\": 1,\n  \"b\": [\n    \x7b\n      \"x\": []\n    \x7d,\n    2\n  ],\n  \"c\": \x7b\x7d\n\x7d".data := by
  decide

example :
    findLd "pre <script type=\"application/ld+json\">nope</script> <script type=\"application/ld+json\"> \x7b\"q\": 7\x7d </script>".data =
    some "\x7b\"q\": 7\x7d".data := by decide

example :
    findLd "x<script type=\"application/ld+json\">\x7b\"n\": \"x\x7d </script>\", \"k\": 1\x7d</script>".data =
    some "\x7b\"n\": \"x\x7d".data := by decide

example : (pyLoads "\x7b\"a\":1,\"b\":2,\"a\":3\x7d".data).map pyDumps =
    some "\x7b\n  \"a\": 3,\n  \"b\": 2\n\x7d".data := by decide

example : (pyLoads " -12 ".data).map pyDumps = some "-12".data := by decide
example : pyLoads "01".data = none := by
  have : (pyLoads "01".data).map pyDumps = none := by decide
  cases h : pyLoads "01".data with
  | none => rfl
  | some v => rw [h] at this; simp at this

/-! Helper lemmas about the string primitives. -/

theorem isPrefixOf_append_self (pat B : List Char) :
    pat.isPrefixOf (pat ++ B) = true := by
  induction pat with
  | nil => simp [List.isPrefixOf]
  | cons c t ih => simp [List.isPrefixOf, ih]

theorem isPrefixOf_iff_eq_append (pat s : List Char) :
    pat.isPrefixOf s = true ↔ ∃ B, s = pat ++ B := by
  constructor
  · intro h
    induction pat generalizing s with
    | nil => exact ⟨s, rfl⟩
    | cons c t ih =>
      cases s with
      | nil => simp [List.isPrefixOf] at h
      | cons d r =>
        simp only [List.isPrefixOf, Bool.and_eq_true, beq_iff_eq] at h
        obtain ⟨B, hB⟩ := ih r h.2
        exact ⟨B, by simp [h.1, hB]⟩
  · rintro ⟨B, rfl⟩
    exact isPrefixOf_append_self pat B

theorem containsSeq_of_append (A pat B : List Char) :
    containsSeq (A ++ pat ++ B) pat = true := by
  induction A with
  | nil =>
    simp only [List.nil_append]
    unfold containsSeq
    rw [isPrefixOf_append_self]
    simp
  | cons c t ih =>
    simp only [List.cons_append]
    unfold containsSeq
    simp only [Bool.or_eq_true, List.isPrefixOf_iff_prefix]
    exact Or.inr ih

theorem containsSeq_false_not_prefix (s pat : List Char)
    (h : containsSeq s pat = false) :
    ∀ i, pat.isPrefixOf (s.drop i) = false := by
  induction s with
  | nil =>
    intro i
    simp only [containsSeq, Bool.or_eq_false_iff] at h
    simpa using h.1
  | cons c t ih =>
    intro i
    simp only [containsSeq, Bool.or_eq_false_iff] at h
    cases i with
    | zero => exact h.1
    | succ j => exact ih h.2 j

theorem pyReplaceFirst_at_first (A old B new : List Char) (hOld : old ≠ [])
    (h : ∀ i < A.length, old.isPrefixOf ((A ++ old ++ B).drop i) = false) :
    pyReplaceFirst (A ++ old ++ B) old new = A ++ new ++ B := by
  induction A with
  | nil =>
    cases hg : old ++ B with
    | nil =>
      cases old with
      | nil => exact absurd rfl hOld
      | cons c t => simp at hg
    | cons c t =>
      simp only [List.nil_append]
      rw [hg]
      simp only [pyReplaceFirst]
      rw [← hg, isPrefixOf_append_self]
      simp [List.drop_left]
  | cons a A' ih =>
    have h0 := h 0 (by simp)
    simp only [List.drop_zero, List.cons_append] at h0
    have step : pyReplaceFirst (a :: (A' ++ old ++ B)) old new =
        a :: pyReplaceFirst (A' ++ old ++ B) old new := by
      rw [pyReplaceFirst, h0]
      simp
    simp only [List.cons_append, step]
    rw [ih (fun i hi => by
      have := h (i + 1) (by simpa using Nat.succ_lt_succ hi)
      simpa [List.cons_append] using this)]

theorem dropWhile_eq_drop_length_takeWhile (p : Char → Bool) (l : List Char) :
    l.dropWhile p = l.drop (l.takeWhile p).length := by
  induction l with
  | nil => rfl
  | cons c t ih =>
    by_cases h : p c = true
    · simp [List.dropWhile_cons, List.takeWhile_cons, h, ih]
    · simp [List.dropWhile_cons, List.takeWhile_cons, h]

theorem braceNormFirst_eq_self (s : List Char)
    (h : ∀ i rest, s.drop i = '\x7d' :: rest →
      markerL.isPrefixOf (skipReWs rest) = false) :
    braceNormFirst s = s := by
  induction s with
  | nil => rfl
  | cons c t ih =>
    have hc : ¬ (c = '\x7d' ∧ markerL.isPrefixOf (skipReWs t) = true) := by
      rintro ⟨rfl, hp⟩
      have h0 := h 0 t (by simp)
      rw [h0] at hp
      exact absurd hp (by simp)
    rw [braceNormFirst, if_neg hc]
    have ih2 := ih (fun i rest hr => h (i + 1) rest (by simpa using hr))
    rw [ih2]

theorem no_brace_match_of_unique_marker (W B : List Char)
    (hUniq : ∀ j, markerL.isPrefixOf
        ((W ++ (",\n    ".data ++ (markerL ++ B))).drop j) = true →
      j = W.length + 6) :
    ∀ i rest, (W ++ (",\n    ".data ++ (markerL ++ B))).drop i = '\x7d' :: rest →
      markerL.isPrefixOf (skipReWs rest) = false := by
  intro i rest hdrop
  by_contra hp0
  have hp : markerL.isPrefixOf (skipReWs rest) = true := by
    cases h : markerL.isPrefixOf (skipReWs rest) with
    | true => rfl
    | false => exact absurd h hp0
  clear hp0
  set s : List Char := W ++ (",\n    ".data ++ (markerL ++ B)) with hs
  set m : Nat := W.length with hm
  have hsm : s.drop m = ',' :: '\n' :: ' ' :: ' ' :: ' ' :: ' ' :: (markerL ++ B) := by
    rw [hs, hm, List.drop_left]
    rfl
  have hrest : rest = s.drop (i + 1) := by
    have h1 : (s.drop i).drop 1 = s.drop (i + 1) := List.drop_drop 1 i s
    rw [← h1, hdrop]
    rfl
  set k : Nat := (rest.takeWhile isPySpaceB).length with hk
  have hskip : skipReWs rest = s.drop (i + 1 + k) := by
    have h2 : (s.drop (i + 1)).drop k = s.drop (i + 1 + k) := List.drop_drop k (i + 1) s
    rw [skipReWs, dropWhile_eq_drop_length_takeWhile, ← hk, hrest, h2]
  have hj : i + 1 + k = m + 6 := by
    apply hUniq
    rw [← hskip]
    exact hp
  rcases Nat.lt_trichotomy i m with hlt | heq | hgt
  · -- a whitespace-run position coincides with the comma before the pad
    have hd : m - (i + 1) < k := by omega
    have hrsplit : rest = rest.takeWhile isPySpaceB ++ skipReWs rest :=
      (List.takeWhile_append_dropWhile isPySpaceB rest).symm
    have hdropd : rest.drop (m - (i + 1)) =
        (rest.takeWhile isPySpaceB).drop (m - (i + 1)) ++ skipReWs rest := by
      conv_lhs => rw [hrsplit]
      exact List.drop_append_of_le_length (by omega)
    cases hT : (rest.takeWhile isPySpaceB).drop (m - (i + 1)) with
    | nil =>
      have hlen : (rest.takeWhile isPySpaceB).length ≤ m - (i + 1) := by
        rw [← List.drop_eq_nil_iff]
        exact hT
      omega
    | cons c t2 =>
      have hcw : isPySpaceB c = true := by
        apply List.mem_takeWhile_imp (l := rest) (p := isPySpaceB)
        apply List.drop_subset (m - (i + 1))
        rw [hT]
        exact List.mem_cons_self c t2
      have hcm : c = ',' := by
        have h3 : rest.drop (m - (i + 1)) = s.drop m := by
          rw [hrest]
          have h4 : (s.drop (i + 1)).drop (m - (i + 1)) = s.drop (i + 1 + (m - (i + 1))) :=
            List.drop_drop (m - (i + 1)) (i + 1) s
          rw [h4]
          congr 1
          omega
        rw [hdropd, hT] at h3
        rw [hsm] at h3
        simp only [List.cons_append, List.cons.injEq] at h3
        exact h3.1
      rw [hcm] at hcw
      exact absurd hcw (by decide)
  · -- the brace position holds a comma
    rw [← heq, hdrop] at hsm
    have hcc : '\x7d' = ',' := by injection hsm
    exact absurd hcc (by decide)
  · -- the brace sits inside the comma-newline-pad run
    obtain ⟨e, rfl⟩ : ∃ e, i = m + e := ⟨i - m, by omega⟩
    have he1 : 1 ≤ e := by omega
    have he5 : e ≤ 5 := by omega
    have hde : s.drop (m + e) = (s.drop m).drop e := (List.drop_drop e m s).symm
    rw [hde, hsm] at hdrop
    interval_cases e <;> simp at hdrop

theorem productBlock_pad (p : Product) :
    productBlock p ++ pad4 = (productBlockFront p ++ ['\x7d']) ++ ",\n    ".data := by
  have hleaf : "\x27\n    \x7d,\n".data ++ pad4 =
      "\x27\n    ".data ++ (['\x7d'] ++ ",\n    ".data) := by decide
  simp only [productBlock, productBlockFront, List.append_assoc, hleaf]

theorem spliced_reassoc (A B : List Char) (p : Product) :
    A ++ (productBlock p ++ pad4 ++ markerL) ++ B =
    (A ++ (productBlockFront p ++ ['\x7d'])) ++ (",\n    ".data ++ (markerL ++ B)) := by
  rw [productBlock_pad]
  simp [List.append_assoc]

theorem updateProductsJs_frame (A B : List Char) (p : Product)
    (hFirst : ∀ i < A.length,
      markerL.isPrefixOf ((A ++ markerL ++ B).drop i) = false)
    (hUniq : ∀ j, markerL.isPrefixOf
        ((A ++ (productBlock p ++ pad4 ++ markerL) ++ B).drop j) = true →
      j = A.length + (productBlockFront p).length + 7) :
    updateProductsJs (A ++ markerL ++ B) p =
      .ok (A ++ (productBlock p ++ pad4 ++ markerL) ++ B) := by
  have hguard : containsSeq (A ++ markerL ++ B) markerL = true :=
    containsSeq_of_append A markerL B
  rw [updateProductsJs, if_pos hguard]
  rw [pyReplaceFirst_at_first A markerL B _ (by decide) hFirst]
  congr 1
  rw [spliced_reassoc]
  apply braceNormFirst_eq_self
  apply no_brace_match_of_unique_marker
  intro j hj
  rw [← spliced_reassoc] at hj
  have hval := hUniq j hj
  simp only [List.length_append, List.length_cons, List.length_nil]
  omega

theorem dictLookup_dictSet_self (kvs : List (List Char × Json)) (k : List Char)
    (v : Json) : dictLookup (dictSet kvs k v) k = some v := by
  induction kvs with
  | nil => simp [dictSet, dictLookup]
  | cons kv t ih =>
    obtain ⟨k2, v2⟩ := kv
    by_cases h : k2 = k
    · simp [dictSet, dictLookup, h]
    · simp [dictSet, dictLookup, h, ih]

theorem dictLookup_dictSet_ne (kvs : List (List Char × Json)) (k k2 : List Char)
    (v : Json) (h : k ≠ k2) :
    dictLookup (dictSet kvs k v) k2 = dictLookup kvs k2 := by
  induction kvs with
  | nil => simp [dictSet, dictLookup, h]
  | cons kv t ih =>
    obtain ⟨k3, v3⟩ := kv
    by_cases h3 : k3 = k
    · subst h3
      simp [dictSet, dictLookup, h]
    · simp [dictSet, dictLookup, h3, ih]

theorem jsonLdInsert_arr (kvs : List (List Char × Json)) (p : Product)
    (xs : List Json) (h : dictLookup kvs ileKey = some (.arr xs)) :
    jsonLdInsert kvs p = .ok (dictSet
      (dictSet kvs ileKey (.arr (xs ++ [mkListItem p ((xs.length : Int) + 1)])))
      nItemsKey (.num ((xs.length : Int) + 1))) := by
  simp [jsonLdInsert, h]

theorem updateJsonLd_ok (content g : List Char)
    (kvs kvs2 : List (List Char × Json)) (p : Product)
    (h1 : findLd content = some g) (h2 : pyLoads g = some (.obj kvs))
    (h3 : jsonLdInsert kvs p = .ok kvs2) :
    updateJsonLd content p = .ok (pyReplaceFirst content g (pyDumps (.obj kvs2))) := by
  simp [updateJsonLd, h1, h2, h3]

theorem itemPos_mkListItem (p : Product) (n : Int) :
    itemPos (mkListItem p n) = some n := by
  simp [itemPos, mkListItem, dictLookup]

theorem insertSeq_arr (ps : List Product) : ∀ kvs xs,
    dictLookup kvs ileKey = some (.arr xs) →
    ∃ kvs2, insertSeq kvs ps = .ok kvs2 ∧
      dictLookup kvs2 ileKey = some (.arr (xs ++ seqItems ps xs.length)) ∧
      (ps ≠ [] → dictLookup kvs2 nItemsKey =
        some (.num ((xs.length : Int) + ps.length))) := by
  induction ps with
  | nil =>
    intro kvs xs h
    exact ⟨kvs, rfl, by simpa [seqItems] using h, fun hc => absurd rfl hc⟩
  | cons p ps ih =>
    intro kvs xs h
    have hstep := jsonLdInsert_arr kvs p xs h
    have hlook : dictLookup (dictSet
        (dictSet kvs ileKey (.arr (xs ++ [mkListItem p ((xs.length : Int) + 1)])))
        nItemsKey (.num ((xs.length : Int) + 1))) ileKey =
        some (.arr (xs ++ [mkListItem p ((xs.length : Int) + 1)])) := by
      rw [dictLookup_dictSet_ne _ _ _ _ (by decide)]
      exact dictLookup_dictSet_self ..
    obtain ⟨kvs2, hrun, hile, hnum⟩ := ih _ _ hlook
    refine ⟨kvs2, ?_, ?_, ?_⟩
    · simp only [insertSeq, hstep]
      exact hrun
    · rw [hile]
      simp only [seqItems, List.length_append, List.length_cons, List.length_nil]
      rw [List.append_assoc]
      simp
    · intro _
      by_cases hps : ps = []
      · subst hps
        simp only [insertSeq] at hrun
        cases hrun
        rw [dictLookup_dictSet_self]
        simp
      · have hv := hnum hps
        rw [hv]
        simp only [List.length_append, List.length_cons, List.length_nil]
        congr 2
        push_cast
        ring

theorem seqItems_map_pos (ps : List Product) : ∀ k,
    (seqItems ps k).map itemPos =
      (List.range ps.length).map (fun i => some (((k + i : Nat) : Int) + 1)) := by
  induction ps with
  | nil => intro k; simp [seqItems]
  | cons p ps ih =>
    intro k
    simp only [seqItems, List.map_cons, itemPos_mkListItem, ih,
      List.length_cons, List.range_succ_eq_map, List.map_map]
    have htail : List.map (fun i => some (((k + 1 + i : Nat) : Int) + 1)) (List.range ps.length) =
        List.map ((fun i => some (((k + i : Nat) : Int) + 1)) ∘ Nat.succ) (List.range ps.length) := by
      apply List.map_congr_left
      intro i _
      simp only [Function.comp_apply, Option.some.injEq]
      push_cast
      ring
    rw [htail]
    simp

theorem concatMap_append (f : Char → List Char) (l1 l2 : List Char) :
    concatMap f (l1 ++ l2) = concatMap f l1 ++ concatMap f l2 := by
  induction l1 with
  | nil => simp [concatMap]
  | cons c t ih => simp [concatMap, ih]

theorem concatMap_congr (f g : Char → List Char) (h : ∀ c, f c = g c)
    (l : List Char) : concatMap f l = concatMap g l := by
  induction l with
  | nil => rfl
  | cons c t ih => simp [concatMap, h c, ih]

theorem pyReplace1_eq_concatMap (a : Char) (r : List Char) (l : List Char) :
    pyReplace1 a r l = concatMap (fun c => if c = a then r else [c]) l := by
  induction l with
  | nil => rfl
  | cons c t ih => simp [pyReplace1, concatMap, ih]

theorem concatMap_concatMap (f g : Char → List Char) (l : List Char) :
    concatMap g (concatMap f l) = concatMap (fun c => concatMap g (f c)) l := by
  induction l with
  | nil => rfl
  | cons c t ih => simp [concatMap, concatMap_append, ih]

theorem escChain_eq_concatMap (v : List Char) :
    pyReplace1 '\n' [' ']
      (pyReplace1 '\x27' ['\\', '\x27']
        (pyReplace1 '\\' ['\\', '\\'] v)) = concatMap escChar v := by
  simp only [pyReplace1_eq_concatMap, concatMap_concatMap]
  apply concatMap_congr
  intro c
  by_cases h1 : c = '\\'
  · subst h1; decide
  · by_cases h2 : c = '\x27'
    · subst h2; decide
    · by_cases h3 : c = '\n'
      · subst h3; decide
      · simp [concatMap, escChar, h1, h2, h3]

theorem unescScript_cons_ne (c : Char) (rest : List Char) (h : c ≠ '\\') :
    unescScript (c :: rest) = c :: unescScript rest := by
  cases rest with
  | nil => simp [unescScript, h]
  | cons d t => simp [unescScript, h]

theorem unescScript_concatMap_escChar (v : List Char) :
    unescScript (concatMap escChar v) = nlToSpace v := by
  induction v with
  | nil => rfl
  | cons c t ih =>
    by_cases h1 : c = '\\'
    · subst h1
      have he : escChar '\\' = ['\\', '\\'] := by decide
      simp only [concatMap, he, List.cons_append, List.nil_append, nlToSpace,
        List.map_cons]
      rw [show unescScript ('\\' :: '\\' :: concatMap escChar t) =
        '\\' :: unescScript (concatMap escChar t) from by simp [unescScript]]
      simp only [nlToSpace] at ih
      simp [ih]
    · by_cases h2 : c = '\x27'
      · subst h2
        have he : escChar '\x27' = ['\\', '\x27'] := by decide
        simp only [concatMap, he, List.cons_append, List.nil_append, nlToSpace,
          List.map_cons]
        rw [show unescScript ('\\' :: '\x27' :: concatMap escChar t) =
          '\x27' :: unescScript (concatMap escChar t) from by simp [unescScript]]
        simp only [nlToSpace] at ih
        simp [ih]
      · by_cases h3 : c = '\n'
        · subst h3
          have he : escChar '\n' = [' '] := by decide
          simp only [concatMap, he, List.cons_append, List.nil_append, nlToSpace,
            List.map_cons]
          rw [unescScript_cons_ne ' ' _ (by decide)]
          simp only [nlToSpace] at ih
          simp [ih]
        · have he : escChar c = [c] := by simp [escChar, h1, h2, h3]
          simp only [concatMap, he, List.cons_append, List.nil_append, nlToSpace,
            List.map_cons]
          rw [unescScript_cons_ne c _ h1]
          simp only [nlToSpace] at ih
          simp [ih, h3]

theorem dropWhile_concatMap_unit (f : Char → List Char)
    (hws : ∀ c, isPySpaceB c = true → ∃ d, f c = [d] ∧ isPySpaceB d = true)
    (hnws : ∀ c, isPySpaceB c = false → ∃ d ds, f c = d :: ds ∧ isPySpaceB d = false) :
    ∀ v, (concatMap f v).dropWhile isPySpaceB = concatMap f (v.dropWhile isPySpaceB) := by
  intro v
  induction v with
  | nil => simp [concatMap]
  | cons c t ih =>
    cases h : isPySpaceB c with
    | true =>
      obtain ⟨d, hf, hd⟩ := hws c h
      simp only [concatMap, hf, List.cons_append, List.nil_append,
        List.dropWhile_cons, hd, h, if_true]
      exact ih
    | false =>
      obtain ⟨d, ds, hf, hd⟩ := hnws c h
      simp only [concatMap, hf, List.cons_append, List.dropWhile_cons, hd, h]
      simp

theorem reverse_concatMap (f : Char → List Char) :
    ∀ v, (concatMap f v).reverse = concatMap (fun c => (f c).reverse) v.reverse := by
  intro v
  induction v with
  | nil => simp [concatMap]
  | cons c t ih =>
    simp only [concatMap, List.reverse_append, ih, List.reverse_cons,
      concatMap_append]
    simp [concatMap]

theorem escChar_unit_ws (c : Char) (h : isPySpaceB c = true) :
    ∃ d, escChar c = [d] ∧ isPySpaceB d = true := by
  simp only [isPySpaceB, Bool.or_eq_true, decide_eq_true_eq] at h
  rcases h with ⟨⟨⟨⟨h | h⟩ | h⟩ | h⟩ | h⟩ | h <;> subst h
  · exact ⟨' ', by decide, by decide⟩
  · exact ⟨'\t', by decide, by decide⟩
  · exact ⟨' ', by decide, by decide⟩
  · exact ⟨'\r', by decide, by decide⟩
  · exact ⟨'\x0b', by decide, by decide⟩
  · exact ⟨'\x0c', by decide, by decide⟩

theorem escChar_unit_nws (c : Char) (h : isPySpaceB c = false) :
    ∃ d ds, escChar c = d :: ds ∧ isPySpaceB d = false := by
  by_cases h1 : c = '\\'
  · subst h1; exact ⟨'\\', ['\\'], by decide, by decide⟩
  · by_cases h2 : c = '\x27'
    · subst h2; exact ⟨'\\', ['\x27'], by decide, by decide⟩
    · have h3 : c ≠ '\n' := by
        intro hc
        subst hc
        simp [isPySpaceB] at h
      exact ⟨c, [], by simp [escChar, h1, h2, h3], h⟩

theorem escCharRev_unit_ws (c : Char) (h : isPySpaceB c = true) :
    ∃ d, (escChar c).reverse = [d] ∧ isPySpaceB d = true := by
  obtain ⟨d, hf, hd⟩ := escChar_unit_ws c h
  exact ⟨d, by rw [hf]; rfl, hd⟩

theorem escCharRev_unit_nws (c : Char) (h : isPySpaceB c = false) :
    ∃ d ds, (escChar c).reverse = d :: ds ∧ isPySpaceB d = false := by
  by_cases h1 : c = '\\'
  · subst h1; exact ⟨'\\', ['\\'], by decide, by decide⟩
  · by_cases h2 : c = '\x27'
    · subst h2; exact ⟨'\x27', ['\\'], by decide, by decide⟩
    · have h3 : c ≠ '\n' := by
        intro hc
        subst hc
        simp [isPySpaceB] at h
      exact ⟨c, [], by simp [escChar, h1, h2, h3], h⟩

theorem pyStrip_concatMap_escChar (v : List Char) :
    pyStrip (concatMap escChar v) = concatMap escChar (pyStrip v) := by
  unfold pyStrip
  rw [dropWhile_concatMap_unit escChar escChar_unit_ws escChar_unit_nws v,
    reverse_concatMap,
    dropWhile_concatMap_unit _ escCharRev_unit_ws escCharRev_unit_nws,
    reverse_concatMap]
  apply concatMap_congr
  intro c
  simp

theorem dropWhile_map_wsPres (g : Char → Char)
    (hg : ∀ c, isPySpaceB (g c) = isPySpaceB c) :
    ∀ v : List Char, (v.map g).dropWhile isPySpaceB = (v.dropWhile isPySpaceB).map g := by
  intro v
  induction v with
  | nil => simp
  | cons c t ih =>
    cases h : isPySpaceB c with
    | true => simp [List.dropWhile_cons, hg, h, ih]
    | false => simp [List.dropWhile_cons, hg, h]

theorem pyStrip_nlToSpace (v : List Char) :
    pyStrip (nlToSpace v) = nlToSpace (pyStrip v) := by
  have hg : ∀ c, isPySpaceB (if c = '\n' then ' ' else c) = isPySpaceB c := by
    intro c
    by_cases h : c = '\n'
    · subst h; decide
    · simp [h]
  unfold pyStrip nlToSpace
  rw [dropWhile_map_wsPres _ hg, ← List.map_reverse,
    dropWhile_map_wsPres _ hg, ← List.map_reverse]

theorem esc_eq_strip_concatMap (v : List Char) :
    esc v = pyStrip (concatMap escChar v) := by
  rw [esc, escChain_eq_concatMap]

theorem findLd_eq_none (content : List Char)
    (h : containsSeq content openTagL = false) : findLd content = none := by
  induction content with
  | nil => rfl
  | cons c t ih =>
    unfold containsSeq at h
    simp only [Bool.or_eq_false_iff] at h
    rw [findLd, if_neg (by simp [h.1])]
    exact ih h.2

theorem attemptCapture_shape (t g : List Char) (h : attemptCapture t = some g) :
    ∃ g2, g = '\x7b' :: g2 := by
  unfold attemptCapture at h
  split at h
  · cases hc : captureBody _ with
    | none => rw [hc] at h; simp at h
    | some g3 =>
      rw [hc] at h
      simp at h
      exact ⟨g3, h.symm⟩
  · simp at h

theorem findLd_some_shape (content : List Char) :
    ∀ g, findLd content = some g → ∃ g2, g = '\x7b' :: g2 := by
  induction content with
  | nil => intro g h; simp [findLd] at h
  | cons c t ih =>
    intro g h
    rw [findLd] at h
    by_cases hp : openTagL.isPrefixOf (c :: t) = true
    · rw [if_pos hp] at h
      cases ha : attemptCapture ((c :: t).drop openTagL.length) with
      | none => rw [ha] at h; exact ih g h
      | some g2 =>
        rw [ha] at h
        simp at h
        subst h
        exact attemptCapture_shape _ g2 ha
    · rw [if_neg hp] at h
      exact ih g h

theorem containsSeq_eq_true_iff (s pat : List Char) :
    containsSeq s pat = true ↔ ∃ A B, s = A ++ pat ++ B := by
  constructor
  · intro h
    induction s with
    | nil =>
      unfold containsSeq at h
      simp only [Bool.or_false] at h
      obtain ⟨B, hB⟩ := (isPrefixOf_iff_eq_append pat []).1 h
      exact ⟨[], B, by simp [hB]⟩
    | cons c t ih =>
      unfold containsSeq at h
      simp only [Bool.or_eq_true] at h
      rcases h with h | h
      · obtain ⟨B, hB⟩ := (isPrefixOf_iff_eq_append pat (c :: t)).1 h
        exact ⟨[], B, by simp [hB]⟩
      · obtain ⟨A, B, hAB⟩ := ih h
        exact ⟨c :: A, B, by simp [hAB]⟩
  · rintro ⟨A, B, rfl⟩
    exact containsSeq_of_append A pat B

theorem containsSeq_map (f : Char → Char) (s pat : List Char)
    (h : containsSeq s pat = true) :
    containsSeq (s.map f) (pat.map f) = true := by
  obtain ⟨A, B, rfl⟩ := (containsSeq_eq_true_iff s pat).1 h
  rw [List.map_append, List.map_append]
  exact containsSeq_of_append _ _ _

theorem updateJsonLd_frame (content g : List Char)
    (kvs kvs2 : List (List Char × Json)) (p : Product) (A B : List Char)
    (h1 : findLd content = some g) (h2 : pyLoads g = some (.obj kvs))
    (h3 : jsonLdInsert kvs p = .ok kvs2) (hAB : content = A ++ g ++ B)
    (hFirst : ∀ i < A.length, g.isPrefixOf (content.drop i) = false) :
    updateJsonLd content p = .ok (A ++ pyDumps (.obj kvs2) ++ B) := by
  rw [updateJsonLd_ok content g kvs kvs2 p h1 h2 h3]
  obtain ⟨g2, hg⟩ := findLd_some_shape content g h1
  subst hAB
  rw [pyReplaceFirst_at_first A g B _ (by simp [hg]) hFirst]

theorem updateProductsJs_frame_bdd (A B : List Char) (p : Product)
    (hFirst : ∀ i < A.length,
      markerL.isPrefixOf ((A ++ markerL ++ B).drop i) = false)
    (hUniq : ∀ j < (A ++ (productBlock p ++ pad4 ++ markerL) ++ B).length,
      markerL.isPrefixOf
        ((A ++ (productBlock p ++ pad4 ++ markerL) ++ B).drop j) = true →
      j = A.length + (productBlockFront p).length + 7) :
    updateProductsJs (A ++ markerL ++ B) p =
      .ok (A ++ (productBlock p ++ pad4 ++ markerL) ++ B) := by
  apply updateProductsJs_frame A B p hFirst
  intro j hj
  by_cases hjl : j < (A ++ (productBlock p ++ pad4 ++ markerL) ++ B).length
  · exact hUniq j hjl hj
  · exfalso
    rw [List.drop_eq_nil_of_le (by omega)] at hj
    exact absurd hj (by decide)

theorem cacheImage_filter_writeDoc (env : Env) (t : List Char) :
    ((cacheImageAsWebp env t).2).filter isWriteDocEv = [] := by
  unfold cacheImageAsWebp decodePhase
  split
  · simp [isWriteDocEv]
  · split
    · split
      · simp [isWriteDocEv]
      · split
        · simp [isWriteDocEv]
        · simp [isWriteDocEv]
    · split
      · simp [isWriteDocEv]
      · simp [isWriteDocEv]

theorem cacheImage_fetch_le_two (env : Env) (t : List Char) :
    ((cacheImageAsWebp env t).2.filter isFetchEv).length ≤ 2 := by
  unfold cacheImageAsWebp decodePhase
  split
  · simp [isFetchEv]
  · split
    · split
      · simp [isFetchEv]
      · split
        · simp [isFetchEv]
        · simp [isFetchEv]
    · split
      · simp [isFetchEv]
      · simp [isFetchEv]

theorem pyStrip_nil_of_nil (v : List Char) (h : v = []) : pyStrip v = [] := by
  subst h
  rfl

theorem ite_singleton_eq_nil (c : Prop) [Decidable c] (x : List Char) :
    ((if c then [x] else []) = []) ↔ ¬ c := by
  split <;> simp_all

theorem validate_eq_nil_iff (p : Product) :
    validate p = [] ↔
      (pyStrip p.title ≠ [] ∧ pyStrip p.url ≠ [] ∧ pyStrip p.image ≠ [] ∧
       pyStrip p.alt ≠ [] ∧ pyStrip p.description ≠ [] ∧
       startsHttp p.url = true ∧ startsHttp p.image = true) := by
  unfold validate
  simp only [List.append_eq_nil, ite_singleton_eq_nil]
  constructor
  · rintro ⟨⟨⟨⟨⟨⟨h1, h2⟩, h3⟩, h4⟩, h5⟩, h6⟩, h7⟩
    refine ⟨h1, h2, h3, h4, h5, ?_, ?_⟩
    · by_cases hu : startsHttp p.url = true
      · exact hu
      · exfalso
        apply h6
        constructor
        · intro hnil
          exact h2 (pyStrip_nil_of_nil _ hnil)
        · simpa using hu
    · by_cases hi : startsHttp p.image = true
      · exact hi
      · exfalso
        apply h7
        constructor
        · intro hnil
          exact h3 (pyStrip_nil_of_nil _ hnil)
        · simpa using hi
  · rintro ⟨h1, h2, h3, h4, h5, h6, h7⟩
    refine ⟨⟨⟨⟨⟨⟨h1, h2⟩, h3⟩, h4⟩, h5⟩, ?_⟩, ?_⟩
    · rintro ⟨-, hns⟩
      exact hns h6
    · rintro ⟨-, hns⟩
      exact hns h7

/-! Claim theorems. -/

/-- C4 counterexample: on the value `a\nb` the reversal of the escape
transform yields `a b`, not the original trimmed value `a\nb` — the
newline collapse is not invertible. -/
theorem claim_C4_cex :
    unescScript (esc "a\nb".data) = "a b".data ∧
    pyStrip "a\nb".data = "a\nb".data ∧
    unescScript (esc "a\nb".data) ≠ pyStrip "a\nb".data := by
  refine ⟨by decide, by decide, by decide⟩

/-- C4 (amended): reversing the escape transform on the escaped value
recovers the original field value with embedded newlines collapsed to
spaces and then trimmed of leading and trailing whitespace, for every
input, including ones containing backslashes, single quotes or embedded
newlines. -/
theorem claim_C4_amended (v : List Char) :
    unescScript (esc v) = pyStrip (nlToSpace v) := by
  rw [esc_eq_strip_concatMap, pyStrip_concatMap_escChar,
    unescScript_concatMap_escChar, pyStrip_nlToSpace]

/-- C6 counterexample: for a 400-wide, 3-tall image the code resizes the
height to `int(350*3/400) = 2` (truncation), while the claim's
`round(350*3/400) = 3`; the value `2.625` is exactly representable in
binary floating point, so the exact-arithmetic model agrees with the
Python computation here. -/
theorem claim_C6_cex :
    resizeDims 400 3 = (350, 2) ∧ claimRoundHeight 400 3 = 3 ∧
    (resizeDims 400 3).2 ≠ claimRoundHeight 400 3 := by
  refine ⟨by decide, by decide, by decide⟩

/-- C6 (amended): for width above the 350 bound the output width is exactly
350 and the output height is `max 1 (int(350*h/w))` where `int` truncates —
under exact arithmetic this is the floor, not the rounding, of `350*h/w`;
an image whose width does not exceed the bound is not resized. -/
theorem claim_C6_amended (w h : Nat) :
    (350 < w → resizeDims w h = (350, max 1 ((350 * h) / w)) ∧
      (350 * h) / w = ⌊((350 * h : Nat) : ℚ) / (w : ℚ)⌋₊) ∧
    (w ≤ 350 → resizeDims w h = (w, h)) := by
  constructor
  · intro hw
    constructor
    · simp [resizeDims, maxWidth, hw]
    · exact (Nat.floor_div_eq_div (350 * h) w).symm
  · intro hw
    rw [resizeDims, if_neg (by simp [maxWidth]; omega)]

/-- C6 witness: the spec's 700-wide scenario downscales to width 350 and
height 61, and a 200-wide image is left alone. -/
theorem claim_C6_witness :
    resizeDims 700 123 = (350, max 1 ((350 * 123) / 700)) ∧
    resizeDims 200 50 = (200, 50) :=
  ⟨((claim_C6_amended 700 123).1 (by decide)).1,
   (claim_C6_amended 200 50).2 (by decide)⟩

/-- C7: a document without the marker comment makes `update_products_js`
fail with its anchor error, and a document without the JSON-LD open tag
makes `update_json_ld` fail with its anchor error; both operations are
pure functions of the input text, so the input is unchanged on failure. -/
theorem claim_C7 (content : List Char) (p : Product) :
    (containsSeq content markerL = false →
      updateProductsJs content p = .error .markerNotFound) ∧
    (containsSeq content openTagL = false →
      updateJsonLd content p = .error .ldBlockNotFound) := by
  constructor
  · intro h
    rw [updateProductsJs, if_neg (by simp [h])]
  · intro h
    rw [updateJsonLd, findLd_eq_none content h]

/-- C7 witness: both operations fail on a document with neither anchor. -/
theorem claim_C7_witness :
    updateProductsJs "hello".data pMug = .error .markerNotFound ∧
    updateJsonLd "hello".data pMug = .error .ldBlockNotFound :=
  ⟨(claim_C7 "hello".data pMug).1 (by decide),
   (claim_C7 "hello".data pMug).2 (by decide)⟩

/-- C8: validation produces at least one error exactly when some required
field is empty after trimming, or the url or image field does not start
with `http://` or `https://` case-insensitively; otherwise it succeeds. -/
theorem claim_C8 (p : Product) :
    validate p ≠ [] ↔
      (pyStrip p.title = [] ∨ pyStrip p.url = [] ∨ pyStrip p.image = [] ∨
       pyStrip p.alt = [] ∨ pyStrip p.description = [] ∨
       startsHttp p.url = false ∨ startsHttp p.image = false) := by
  rw [Ne, validate_eq_nil_iff]
  constructor
  · intro h
    by_contra hc
    push_neg at hc
    obtain ⟨h1, h2, h3, h4, h5, h6, h7⟩ := hc
    exact h ⟨h1, h2, h3, h4, h5, by simpa using h6, by simpa using h7⟩
  · rintro (h | h | h | h | h | h | h) ⟨h1, h2, h3, h4, h5, h6, h7⟩
    · exact h1 h
    · exact h2 h
    · exact h3 h
    · exact h4 h
    · exact h5 h
    · rw [h6] at h; exact absurd h (by decide)
    · rw [h7] at h; exact absurd h (by decide)

/-- C5: when the first response's Content-Type contains `avif` or its first
32 bytes contain the `ftypavif` magic, the pipeline issues exactly one
additional fetch with the stricter Accept header (which does not mention
avif) before any decode attempt, and no run of the pipeline ever issues
more than two fetches, whatever the second response contains. -/
theorem claim_C5 (env : Env) (t : List Char) (body : List Nat) (ct : List Char)
    (h0 : env.responses.get? 0 = some (.success body ct))
    (hdet : containsSeq ct "avif".data = true ∨
      containsSeq (body.take 32) ftypavifB = true) :
    (cacheImageAsWebp env t).2.take 3 =
      [.mkdirImages, .fetch acceptPrimary, .fetch acceptRetry] ∧
    (cacheImageAsWebp env t).2.filter isFetchEv =
      [.fetch acceptPrimary, .fetch acceptRetry] ∧
    containsSeq acceptRetry "avif".data = false ∧
    (∀ env2 : Env, ∀ t2 : List Char,
      ((cacheImageAsWebp env2 t2).2.filter isFetchEv).length ≤ 2) := by
  have hdet2 : avifDetect body ct = true := by
    rcases hdet with h | h
    · have hm := containsSeq_map Char.toLower ct "avif".data h
      have hpat : "avif".data.map Char.toLower = "avif".data := by decide
      rw [hpat] at hm
      simp [avifDetect, hm]
    · simp [avifDetect, h]
  refine ⟨?_, ?_, by decide, fun env2 t2 => cacheImage_fetch_le_two env2 t2⟩
  · unfold cacheImageAsWebp
    rw [h0]
    simp only [fetchResult, hdet2, if_true]
    split
    · simp
    · unfold decodePhase
      split <;> simp
  · unfold cacheImageAsWebp
    rw [h0]
    simp only [fetchResult, hdet2, if_true]
    split
    · simp [isFetchEv]
    · unfold decodePhase
      split <;> simp [isFetchEv]

/-- C5 witness: an AVIF first response (by header and magic) triggers the
single retry. -/
theorem claim_C5_witness :
    (cacheImageAsWebp envAvif "t".data).2.take 3 =
      [.mkdirImages, .fetch acceptPrimary, .fetch acceptRetry] ∧
    (cacheImageAsWebp envAvif "t".data).2.filter isFetchEv =
      [.fetch acceptPrimary, .fetch acceptRetry] ∧
    containsSeq acceptRetry "avif".data = false ∧
    (∀ env2 : Env, ∀ t2 : List Char,
      ((cacheImageAsWebp env2 t2).2.filter isFetchEv).length ≤ 2) :=
  claim_C5 envAvif "t".data ([1, 2] ++ ftypavifB) "image/avif".data rfl
    (Or.inl (by decide))

/-- C3 counterexample: with a successful fetch and decode but an
`index.html` missing the marker comment, `add_product` propagates the
anchor error, yet the cached image asset has already been written to disk
before the document transforms ran — an on-disk write despite the
failure. -/
theorem claim_C3_cex :
    (addProduct envNoMarker pMug).1 = .error .markerNotFound ∧
    Event.writeImage "images/test-mug.webp".data (100, 100) ∈
      (addProduct envNoMarker pMug).2 := by
  refine ⟨rfl, by decide⟩

/-- C3 (amended): no write to the primary or mirror document occurs unless
all in-memory transforms succeed — on any failure the document-write
events are absent (though the image cache write and its directory creation
happen during normalization, before the document transforms, and persist);
on success the identical final text is written first to `index.html` and
then to `404.html`, and the first error propagates unmodified as the
result. -/
theorem claim_C3_amended (env : Env) (p : Product) :
    (∀ e : PmError, (addProduct env p).1 = .error e →
      (addProduct env p).2.filter isWriteDocEv = []) ∧
    (∀ c : List Char, (addProduct env p).1 = .ok c →
      (addProduct env p).2.filter isWriteDocEv =
        [.writeDoc "index.html".data c, .writeDoc "404.html".data c]) := by
  have hcache := cacheImage_filter_writeDoc env p.title
  unfold addProduct
  cases hc : cacheImageAsWebp env p.title with
  | mk r evs =>
    rw [hc] at hcache
    simp only at hcache
    cases r with
    | error e0 =>
      refine ⟨fun e he => ?_, fun c hcok => ?_⟩
      · simpa using hcache
      · simp at hcok
    | ok path =>
      cases hidx : env.indexContent with
      | error u =>
        refine ⟨fun e he => ?_, fun c hcok => ?_⟩
        · simp [List.filter_append, hcache, isWriteDocEv]
        · simp at hcok
      | ok content =>
        cases hup : updateProductsJs content { p with image := path } with
        | error e1 =>
          refine ⟨fun e he => ?_, fun c hcok => ?_⟩
          · simp [hup, List.filter_append, hcache, isWriteDocEv]
          · simp [hup] at hcok
        | ok c1 =>
          cases hld : updateJsonLd c1 { p with image := path } with
          | error e2 =>
            refine ⟨fun e he => ?_, fun c hcok => ?_⟩
            · simp [hup, hld, List.filter_append, hcache, isWriteDocEv]
            · simp [hup, hld] at hcok
          | ok c2 =>
            refine ⟨fun e he => ?_, fun c hcok => ?_⟩
            · simp [hup, hld] at he
            · simp [hup, hld] at hcok
              subst hcok
              simp [hup, hld, List.filter_append, hcache, isWriteDocEv]

/-- C3 witness: a fully successful run writes the identical final text to
the primary document and the mirror. -/
theorem claim_C3_witness :
    (addProduct envGood pMug).1 = .ok finalDocGood ∧
    (addProduct envGood pMug).2.filter isWriteDocEv =
      [.writeDoc "index.html".data finalDocGood,
       .writeDoc "404.html".data finalDocGood] := by
  have h1 : (addProduct envGood pMug).1 = .ok finalDocGood := rfl
  exact ⟨h1, (claim_C3_amended envGood pMug).2 finalDocGood h1⟩

/-- C2 counterexample: in a document with two marker occurrences, the
second preceded by a closing brace and a space, `update_products_js`
splices before the first marker but the brace normalization additionally
rewrites the region before the second marker, so bytes outside the first
anchor region change. -/
theorem claim_C2_cex :
    updateProductsJs docTwoMarks pMug =
      .ok (productBlock pMug ++ pad4 ++ markerL ++ " B \x7d,\n    ".data ++ markerL) ∧
    productBlock pMug ++ pad4 ++ markerL ++ " B \x7d,\n    ".data ++ markerL ≠
      productBlock pMug ++ pad4 ++ markerL ++ " B \x7d ".data ++ markerL := by
  refine ⟨rfl, by decide⟩

/-- C2 (amended): `update_products_js` splices the serialized entry and a
pad before the first marker occurrence and leaves every other byte
unchanged, provided the only marker occurrence in the spliced text is the
re-inserted one (otherwise the brace normalization may rewrite a later
occurrence's region, as the counterexample shows); `update_json_ld`
replaces the first occurrence in the whole document of the captured JSON
text, which is exactly the captured region whenever that text does not
occur earlier in the document. -/
theorem claim_C2_amended (p : Product) :
    (∀ A B : List Char,
      (∀ i < A.length, markerL.isPrefixOf ((A ++ markerL ++ B).drop i) = false) →
      (∀ j < (A ++ (productBlock p ++ pad4 ++ markerL) ++ B).length,
        markerL.isPrefixOf
          ((A ++ (productBlock p ++ pad4 ++ markerL) ++ B).drop j) = true →
        j = A.length + (productBlockFront p).length + 7) →
      updateProductsJs (A ++ markerL ++ B) p =
        .ok (A ++ (productBlock p ++ pad4 ++ markerL) ++ B)) ∧
    (∀ content g : List Char, ∀ kvs kvs2 : List (List Char × Json),
      findLd content = some g → pyLoads g = some (.obj kvs) →
      jsonLdInsert kvs p = .ok kvs2 →
      updateJsonLd content p =
        .ok (pyReplaceFirst content g (pyDumps (.obj kvs2))) ∧
      ∀ A B : List Char, content = A ++ g ++ B →
        (∀ i < A.length, g.isPrefixOf (content.drop i) = false) →
        updateJsonLd content p = .ok (A ++ pyDumps (.obj kvs2) ++ B)) := by
  constructor
  · exact fun A B h1 h2 => updateProductsJs_frame_bdd A B p h1 h2
  · intro content g kvs kvs2 h1 h2 h3
    exact ⟨updateJsonLd_ok content g kvs kvs2 p h1 h2 h3,
      fun A B hAB hF => updateJsonLd_frame content g kvs kvs2 p A B h1 h2 h3 hAB hF⟩

/-- C2 witness: both amended frame statements evaluated on concrete
documents with unique anchors. -/
theorem claim_C2_witness :
    updateProductsJs ("A".data ++ markerL ++ "\nB".data) pMug =
      .ok ("A".data ++ (productBlock pMug ++ pad4 ++ markerL) ++ "\nB".data) ∧
    updateJsonLd docGood pMug =
      .ok (docGoodPre ++ pyDumps (.obj kvs2Good) ++ docGoodPost) := by
  constructor
  · exact (claim_C2_amended pMug).1 "A".data "\nB".data (by decide) (by decide)
  · exact ((claim_C2_amended pMug).2 docGood gGood kvsGood kvs2Good rfl rfl rfl).2
      docGoodPre docGoodPost rfl (by decide)

/-- C1 counterexample: a document whose JSON-LD block parses (it is the
two-character object) but whose captured text occurs earlier in the
document: after both operations the block's item list still has length 0,
not 1, because the first-occurrence replacement landed on the earlier
copy. -/
theorem claim_C1_cex :
    insertBothItems docTwin pMug = some 0 ∧ docItemsLen docTwin = some 0 := by
  refine ⟨rfl, rfl⟩

/-- C1 (amended): at the structured-data object level each insertion
appends exactly one item and sets `numberOfItems` to the new length of
`itemListElement`; after N sequential insertions into an object whose
item list starts empty, the positions are exactly 1..N regardless of field
content, and `numberOfItems` is N.  At the document level a single
insertion rewrites the captured region with the serialization of the
updated object provided the captured text's first occurrence in the
document is the capture itself. -/
theorem claim_C1_amended :
    (∀ kvs : List (List Char × Json), ∀ p : Product, ∀ xs : List Json,
      dictLookup kvs ileKey = some (.arr xs) →
      ∃ kvs2, jsonLdInsert kvs p = .ok kvs2 ∧
        dictLookup kvs2 ileKey =
          some (.arr (xs ++ [mkListItem p ((xs.length : Int) + 1)])) ∧
        dictLookup kvs2 nItemsKey = some (.num ((xs.length : Int) + 1))) ∧
    (∀ kvs0 : List (List Char × Json), ∀ ps : List Product,
      dictLookup kvs0 ileKey = some (.arr []) →
      ∃ kvs2, insertSeq kvs0 ps = .ok kvs2 ∧
        posList kvs2 =
          some ((List.range ps.length).map (fun i : Nat => some ((i : Int) + 1))) ∧
        (ps ≠ [] → dictLookup kvs2 nItemsKey = some (.num (ps.length : Int)))) ∧
    (∀ content g : List Char, ∀ kvs kvs2 : List (List Char × Json),
      ∀ p : Product, ∀ A B : List Char,
      findLd content = some g → pyLoads g = some (.obj kvs) →
      jsonLdInsert kvs p = .ok kvs2 → content = A ++ g ++ B →
      (∀ i < A.length, g.isPrefixOf (content.drop i) = false) →
      updateJsonLd content p = .ok (A ++ pyDumps (.obj kvs2) ++ B)) := by
  refine ⟨?_, ?_, ?_⟩
  · intro kvs p xs h
    refine ⟨_, jsonLdInsert_arr kvs p xs h, ?_, ?_⟩
    · rw [dictLookup_dictSet_ne _ _ _ _ (by decide)]
      exact dictLookup_dictSet_self ..
    · exact dictLookup_dictSet_self ..
  · intro kvs0 ps h
    obtain ⟨kvs2, hrun, hile, hnum⟩ := insertSeq_arr ps kvs0 [] h
    refine ⟨kvs2, hrun, ?_, ?_⟩
    · rw [posList, hile]
      simp only [List.nil_append, List.length_nil]
      rw [seqItems_map_pos ps 0]
      congr 1
      apply List.map_congr_left
      intro i _
      simp
    · intro hne
      have hv := hnum hne
      simpa using hv
  · intro content g kvs kvs2 p A B h1 h2 h3 hAB hF
    exact updateJsonLd_frame content g kvs kvs2 p A B h1 h2 h3 hAB hF

/-- C1 witness: the worked scenario object gains one item at position 1
with the count set to 1; two successive insertions give positions 1, 2 and
count 2; and the document-level rewrite lands on the capture of the
well-formed host document. -/
theorem claim_C1_witness :
    (∃ kvs2, jsonLdInsert kvsGood pMug = .ok kvs2 ∧
      dictLookup kvs2 ileKey =
        some (.arr ([] ++ [mkListItem pMug ((([] : List Json).length : Int) + 1)])) ∧
      dictLookup kvs2 nItemsKey =
        some (.num ((([] : List Json).length : Int) + 1))) ∧
    (∃ kvs2, insertSeq kvsGood [pMug, pMug] = .ok kvs2 ∧
      posList kvs2 = some [some 1, some 2] ∧
      dictLookup kvs2 nItemsKey = some (.num 2)) ∧
    updateJsonLd docGood pMug =
      .ok (docGoodPre ++ pyDumps (.obj kvs2Good) ++ docGoodPost) := by
  refine ⟨claim_C1_amended.1 kvsGood pMug [] rfl, ?_, ?_⟩
  · obtain ⟨kvs2, h1, h2, h3⟩ := claim_C1_amended.2.1 kvsGood [pMug, pMug] rfl
    refine ⟨kvs2, h1, ?_, ?_⟩
    · rw [h2]
      decide
    · have hv := h3 (by simp)
      simpa using hv
  · exact claim_C1_amended.2.2 docGood gGood kvsGood kvs2Good pMug docGoodPre
      docGoodPost rfl rfl rfl rfl (by decide)

/-- C9: for a document whose block parses with a list-valued
`itemListElement`, the update appends one item whose position is the prior
length plus one, leaves every pre-existing item untouched and in order
(so gaps or duplicate positions are preserved), and recomputes
`numberOfItems` as the new actual length regardless of its prior value. -/
theorem claim_C9 (content g : List Char) (kvs : List (List Char × Json))
    (p : Product) (xs : List Json)
    (h1 : findLd content = some g) (h2 : pyLoads g = some (.obj kvs))
    (h3 : dictLookup kvs ileKey = some (.arr xs)) :
    ∃ kvs2, jsonLdInsert kvs p = .ok kvs2 ∧
      updateJsonLd content p =
        .ok (pyReplaceFirst content g (pyDumps (.obj kvs2))) ∧
      dictLookup kvs2 ileKey =
        some (.arr (xs ++ [mkListItem p ((xs.length : Int) + 1)])) ∧
      itemPos (mkListItem p ((xs.length : Int) + 1)) =
        some ((xs.length : Int) + 1) ∧
      dictLookup kvs2 nItemsKey = some (.num ((xs.length : Int) + 1)) := by
  refine ⟨_, jsonLdInsert_arr kvs p xs h3,
    updateJsonLd_ok content g kvs _ p h1 h2 (jsonLdInsert_arr kvs p xs h3),
    ?_, itemPos_mkListItem .., ?_⟩
  · rw [dictLookup_dictSet_ne _ _ _ _ (by decide)]
    exact dictLookup_dictSet_self ..
  · exact dictLookup_dictSet_self ..

/-- C9 witness: a block with duplicate positions 3, 3 and a wrong count 99
gains an appended item at position 3 (two prior items), keeps the
duplicates, and has its count silently corrected to 3. -/
theorem claim_C9_witness :
    ∃ kvs2, jsonLdInsert kvsGaps pMug = .ok kvs2 ∧
      updateJsonLd docGaps pMug =
        .ok (pyReplaceFirst docGaps gGaps (pyDumps (.obj kvs2))) ∧
      dictLookup kvs2 ileKey =
        some (.arr (xsGaps ++ [mkListItem pMug ((xsGaps.length : Int) + 1)])) ∧
      itemPos (mkListItem pMug ((xsGaps.length : Int) + 1)) =
        some ((xsGaps.length : Int) + 1) ∧
      dictLookup kvs2 nItemsKey = some (.num ((xsGaps.length : Int) + 1)) :=
  claim_C9 docGaps gGaps kvsGaps pMug xsGaps rfl rfl rfl

/-- C10: the update preserves, as values, every top-level key other than
`itemListElement` and `numberOfItems`, preserves all pre-existing items of
`itemListElement` in order, and its only structural changes are the one
appended item and the recomputed count; the document receives the 2-space
re-serialization of exactly that object. -/
theorem claim_C10 (content g : List Char) (kvs : List (List Char × Json))
    (p : Product) (xs : List Json)
    (h1 : findLd content = some g) (h2 : pyLoads g = some (.obj kvs))
    (h3 : dictLookup kvs ileKey = some (.arr xs)) :
    ∃ kvs2, jsonLdInsert kvs p = .ok kvs2 ∧
      updateJsonLd content p =
        .ok (pyReplaceFirst content g (pyDumps (.obj kvs2))) ∧
      (∀ k : List Char, k ≠ ileKey → k ≠ nItemsKey →
        dictLookup kvs2 k = dictLookup kvs k) ∧
      dictLookup kvs2 ileKey =
        some (.arr (xs ++ [mkListItem p ((xs.length : Int) + 1)])) ∧
      dictLookup kvs2 nItemsKey = some (.num ((xs.length : Int) + 1)) := by
  refine ⟨_, jsonLdInsert_arr kvs p xs h3,
    updateJsonLd_ok content g kvs _ p h1 h2 (jsonLdInsert_arr kvs p xs h3),
    ?_, ?_, ?_⟩
  · intro k hk1 hk2
    rw [dictLookup_dictSet_ne _ _ _ _ (Ne.symm hk2),
      dictLookup_dictSet_ne _ _ _ _ (Ne.symm hk1)]
  · rw [dictLookup_dictSet_ne _ _ _ _ (by decide)]
    exact dictLookup_dictSet_self ..
  · exact dictLookup_dictSet_self ..

/-- C10 witness: the unrelated top-level key `keep` of the gapped document
is preserved across the update. -/
theorem claim_C10_witness :
    ∃ kvs2, jsonLdInsert kvsGaps pMug = .ok kvs2 ∧
      updateJsonLd docGaps pMug =
        .ok (pyReplaceFirst docGaps gGaps (pyDumps (.obj kvs2))) ∧
      (∀ k : List Char, k ≠ ileKey → k ≠ nItemsKey →
        dictLookup kvs2 k = dictLookup kvsGaps k) ∧
      dictLookup kvs2 ileKey =
        some (.arr (xsGaps ++ [mkListItem pMug ((xsGaps.length : Int) + 1)])) ∧
      dictLookup kvs2 nItemsKey = some (.num ((xsGaps.length : Int) + 1)) :=
  claim_C10 docGaps gGaps kvsGaps pMug xsGaps rfl rfl rfl
